import Mathlib

/-!
Verification development for the `mm-liquidator-rs` repository.

The repository ships three Rust source files: `src/main.rs` (CLI surface and
engine wiring), and the generated contract bindings
`crates/bindings-mm/src/poolutils.rs` and `crates/bindings-mm/src/safeerc20.rs`.
The strategy core (`strategies/`, `collectors/`, `executors/`) is referenced by
`main.rs` but its sources are not part of the repository snapshot; components
from those modules are modelled from the specification where needed and are
marked as such in their doc comments.

Machine integers are modelled as `Nat`; a `u8` is a `Nat` below 256, a 4-byte
selector is modelled by its big-endian numeric value (for equal-length byte
arrays, lexicographic order on the bytes coincides with big-endian numeric
order, so `slice::binary_search` over `[u8; 4]` keys behaves identically).
-/

namespace MmLiquidator

/-! ## Byte-array selectors (poolutils.rs) -/

/-- Big-endian numeric value of a 4-byte array `[b0, b1, b2, b3]`. -/
def bytes4 (b0 b1 b2 b3 : Nat) : Nat :=
  ((b0 * 256 + b1) * 256 + b2) * 256 + b3

namespace PoolUtils

/-- `IGNORE_CALC_AVAILABLECall` — the call struct has no fields
(signature `IGNORE_CALC_AVAILABLE()`, selector `0xdd2e0a60`). -/
structure IGNORE_CALC_AVAILABLECall where
  deriving DecidableEq

/-- `IGNORE_CALC_LOANCall` — the call struct has no fields
(signature `IGNORE_CALC_LOAN()`, selector `0x783d0971`). -/
structure IGNORE_CALC_LOANCall where
  deriving DecidableEq

/-- `MINIMUM_LIQUIDITYCall` — the call struct has no fields
(signature `MINIMUM_LIQUIDITY()`, selector `0xba9a7a56`). -/
structure MINIMUM_LIQUIDITYCall where
  deriving DecidableEq

/-- `SELECTOR` of `IGNORE_CALC_AVAILABLECall`: `[221, 46, 10, 96]`. -/
def IGNORE_CALC_AVAILABLECall.SELECTOR : Nat := bytes4 221 46 10 96

/-- `SELECTOR` of `IGNORE_CALC_LOANCall`: `[120, 61, 9, 113]`. -/
def IGNORE_CALC_LOANCall.SELECTOR : Nat := bytes4 120 61 9 113

/-- `SELECTOR` of `MINIMUM_LIQUIDITYCall`: `[186, 154, 122, 86]`. -/
def MINIMUM_LIQUIDITYCall.SELECTOR : Nat := bytes4 186 154 122 86

/-- Errors surfaced by the alloy decoding layer used by the bindings:
an unknown selector (`Error::unknown_selector`), or the re-encode check
performed when `validate` is set fails. -/
inductive SolError where
  | unknown_selector (name : String) (selector : Nat)
  | reencode_mismatch
  deriving DecidableEq

/-- ABI decoding of the empty parameter tuple `()` (alloy
`abi_decode_sequence` on `()`): decoding itself consumes no bytes and always
succeeds; when `validate` is set the decoded value is re-encoded (to the empty
byte string) and compared with the input, so trailing bytes are rejected. -/
def abi_decode_unit (data : List Nat) (validate : Bool) : Except SolError Unit :=
  if validate && !data.isEmpty then .error .reencode_mismatch else .ok ()

/-- `IGNORE_CALC_AVAILABLECall::abi_decode_raw`: decode the empty tuple. -/
def IGNORE_CALC_AVAILABLECall.abi_decode_raw (data : List Nat) (validate : Bool) :
    Except SolError IGNORE_CALC_AVAILABLECall :=
  (abi_decode_unit data validate).map fun _ => {}

/-- `IGNORE_CALC_LOANCall::abi_decode_raw`: decode the empty tuple. -/
def IGNORE_CALC_LOANCall.abi_decode_raw (data : List Nat) (validate : Bool) :
    Except SolError IGNORE_CALC_LOANCall :=
  (abi_decode_unit data validate).map fun _ => {}

/-- `MINIMUM_LIQUIDITYCall::abi_decode_raw`: decode the empty tuple. -/
def MINIMUM_LIQUIDITYCall.abi_decode_raw (data : List Nat) (validate : Bool) :
    Except SolError MINIMUM_LIQUIDITYCall :=
  (abi_decode_unit data validate).map fun _ => {}

/-- ABI encoding of the empty parameter tuple: the empty byte string. -/
def abi_encode_unit : List Nat := []

/-- `PoolUtilsCalls` — container enum for the three `PoolUtils` calls. -/
inductive PoolUtilsCalls where
  | IGNORE_CALC_AVAILABLE : IGNORE_CALC_AVAILABLECall → PoolUtilsCalls
  | IGNORE_CALC_LOAN : IGNORE_CALC_LOANCall → PoolUtilsCalls
  | MINIMUM_LIQUIDITY : MINIMUM_LIQUIDITYCall → PoolUtilsCalls
  deriving DecidableEq

/-- `PoolUtilsCalls::SELECTORS` — the selector table, in the order written in
the source (`[120,61,9,113]`, `[186,154,122,86]`, `[221,46,10,96]`). -/
def PoolUtilsCalls.SELECTORS : List Nat :=
  [bytes4 120 61 9 113, bytes4 186 154 122 86, bytes4 221 46 10 96]

/-- `SolInterface::selector` for `PoolUtilsCalls`. -/
def PoolUtilsCalls.selector : PoolUtilsCalls → Nat
  | .IGNORE_CALC_AVAILABLE _ => IGNORE_CALC_AVAILABLECall.SELECTOR
  | .IGNORE_CALC_LOAN _ => IGNORE_CALC_LOANCall.SELECTOR
  | .MINIMUM_LIQUIDITY _ => MINIMUM_LIQUIDITYCall.SELECTOR

/-- `SolInterface::abi_encode_raw` for `PoolUtilsCalls`: each variant encodes
its (empty) parameter tuple. -/
def PoolUtilsCalls.abi_encode_raw : PoolUtilsCalls → List Nat
  | .IGNORE_CALC_AVAILABLE _ => abi_encode_unit
  | .IGNORE_CALC_LOAN _ => abi_encode_unit
  | .MINIMUM_LIQUIDITY _ => abi_encode_unit

/-- Three-way comparison used by `slice::binary_search` (`Ord::cmp` of the
probed element against the key). -/
def natCmp (e key : Nat) : Ordering :=
  if e < key then .lt else if key < e then .gt else .eq

/-- Loop of Rust `slice::binary_search_by` on a `List Nat`: maintain
`left`/`right`, probe `mid = left + size / 2`, narrow the half, return
`Ok(mid)` on equality and `Err(left)` (the insertion point) when the range
empties. The extra fuel argument only makes the recursion structural; fuel
`xs.length + 1` is enough since the range strictly shrinks every iteration. -/
def binarySearchGo (xs : List Nat) (key : Nat) : Nat → Nat → Nat → Except Nat Nat
  | 0, left, _ => .error left
  | fuel + 1, left, right =>
    if left < right then
      let mid := left + (right - left) / 2
      match natCmp (xs.getD mid 0) key with
      | .lt => binarySearchGo xs key fuel (mid + 1) right
      | .gt => binarySearchGo xs key fuel left mid
      | .eq => .ok mid
    else .error left

/-- Rust `slice::binary_search` on a `List Nat`. -/
def binary_search (xs : List Nat) (key : Nat) : Except Nat Nat :=
  binarySearchGo xs key (xs.length + 1) 0 xs.length

/-- `DECODE_SHIMS` of `PoolUtilsCalls::abi_decode_raw`, in source order:
index 0 decodes `IGNORE_CALC_LOAN`, index 1 `MINIMUM_LIQUIDITY`,
index 2 `IGNORE_CALC_AVAILABLE`. -/
def PoolUtilsCalls.DECODE_SHIMS :
    List (List Nat → Bool → Except SolError PoolUtilsCalls) :=
  [fun data validate =>
      (IGNORE_CALC_LOANCall.abi_decode_raw data validate).map .IGNORE_CALC_LOAN,
    fun data validate =>
      (MINIMUM_LIQUIDITYCall.abi_decode_raw data validate).map .MINIMUM_LIQUIDITY,
    fun data validate =>
      (IGNORE_CALC_AVAILABLECall.abi_decode_raw data validate).map .IGNORE_CALC_AVAILABLE]

/-- `PoolUtilsCalls::abi_decode_raw`: binary-search the selector table; on a
miss return `Error::unknown_selector("PoolUtilsCalls", selector)`, on a hit
dispatch to the shim at the found index. The source indexes `DECODE_SHIMS`
with `get_unchecked(idx)`; the model uses `getD` with a never-taken default. -/
def PoolUtilsCalls.abi_decode_raw (selector : Nat) (data : List Nat)
    (validate : Bool) : Except SolError PoolUtilsCalls :=
  match binary_search PoolUtilsCalls.SELECTORS selector with
  | .error _ => .error (.unknown_selector "PoolUtilsCalls" selector)
  | .ok idx =>
      (PoolUtilsCalls.DECODE_SHIMS.getD idx fun _ _ => .error .reencode_mismatch)
        data validate

end PoolUtils

/-! ## PoolStateCache (strategy core) -/

/-- `PoolRecord` of the strategy cache: reserve/liquidity reading plus the
block at which it was read. Modelled from the spec: the `strategies/` module
holding `PoolStateCache` is not part of the repository snapshot; fields follow
the spec's data model (reserve quantities unsigned, `last_synced_block`). -/
structure PoolRecord where
  reserve : Nat
  last_synced_block : Nat
  deriving DecidableEq

/-- `PoolStateCache`: mapping from pool identifier to its last-known
`PoolRecord`. Modelled from the spec: `strategies/` is missing from the
snapshot. -/
def PoolStateCache : Type := Nat → Option PoolRecord

/-- Modelled from the spec: `apply(pool_id, reading, block)` of the missing
`PoolStateCache` — "updates a PoolRecord only if `block` is not older than the
stored `last_synced_block`; stale or out-of-order reads are dropped". -/
def PoolStateCache.apply (cache : PoolStateCache) (pool_id reading block : Nat) :
    PoolStateCache :=
  fun pid =>
    if pid = pool_id then
      match cache pool_id with
      | none => some { reserve := reading, last_synced_block := block }
      | some r =>
          if block < r.last_synced_block then some r
          else some { reserve := reading, last_synced_block := block }
    else cache pid

/-- The `last_synced_block` stored for a pool (0 when the pool is absent). -/
def PoolStateCache.storedBlock (cache : PoolStateCache) (pool_id : Nat) : Nat :=
  (cache pool_id).elim 0 PoolRecord.last_synced_block

/-- One `apply` call described as data, so sequences of calls can be folded. -/
structure ApplyCall where
  pool_id : Nat
  reading : Nat
  block : Nat

/-- Apply a whole sequence of `apply` calls in order. -/
def PoolStateCache.applyAll (cache : PoolStateCache) (calls : List ApplyCall) :
    PoolStateCache :=
  calls.foldl (fun c k => c.apply k.pool_id k.reading k.block) cache

/-! ## BudgetLedger and BidSizer (strategy core) -/

/-- `BudgetLedger`: cumulative committed spend against a fixed cap. Modelled
from the spec: `strategies/` is missing from the snapshot; the cap is the
configured `total_profit` bound. -/
structure BudgetLedger where
  cumulative_spent : Nat
  cap : Nat
  deriving DecidableEq

/-- Error raised when a bid would breach the cumulative cap. -/
inductive BudgetError where
  | BudgetExceeded
  deriving DecidableEq

/-- A reservation token returned by a successful `reserve`, recording the
reserved amount so a later `release` can restore it. -/
structure Reservation where
  amount : Nat
  deriving DecidableEq

/-- Modelled from the spec: `reserve(amount)` of the missing `BudgetLedger` —
"fails with `BudgetExceeded` when `cumulative_spent + amount > cap`; on
success it atomically increments `cumulative_spent` and returns a reservation
token". -/
def BudgetLedger.reserve (l : BudgetLedger) (amount : Nat) :
    Except BudgetError (BudgetLedger × Reservation) :=
  if l.cumulative_spent + amount > l.cap then .error .BudgetExceeded
  else .ok ({ l with cumulative_spent := l.cumulative_spent + amount },
    { amount := amount })

/-- Modelled from the spec: releasing an unconfirmed reservation of the
missing `BudgetLedger` — "restores exactly the reserved amount". -/
def BudgetLedger.release (l : BudgetLedger) (r : Reservation) : BudgetLedger :=
  { l with cumulative_spent := l.cumulative_spent - r.amount }

/-- One ledger call described as data: a `reserve(amount)` attempt or the
`release` of a token, so interleavings can be folded. -/
inductive LedgerOp where
  | reserveOp (amount : Nat)
  | releaseOp (token : Reservation)

/-- Run one ledger call; a failed `reserve` leaves the ledger unchanged. -/
def BudgetLedger.step (l : BudgetLedger) : LedgerOp → BudgetLedger
  | .reserveOp amount =>
      match l.reserve amount with
      | .ok (l2, _) => l2
      | .error _ => l
  | .releaseOp token => l.release token

/-- Run a whole interleaving of `reserve`/`release` calls in order. -/
def BudgetLedger.run (l : BudgetLedger) (ops : List LedgerOp) : BudgetLedger :=
  ops.foldl BudgetLedger.step l

/-- An opportunity as seen by the bid sizer: only its estimated profit
matters here. Modelled from the spec: `strategies/` is missing from the
snapshot; opportunities reaching the sizer have positive estimated profit
(non-positive ones are discarded by the evaluator). -/
structure Opportunity where
  estimated_profit : Nat
  deriving DecidableEq

/-- Modelled from the spec: `size_bid(opportunity, bid_percentage)` of the
missing `BidSizer` — "computes `gas_bid = estimated_profit * bid_percentage
/ 100` using integer arithmetic", rounding down. -/
def size_bid (o : Opportunity) (bid_percentage : Nat) : Nat :=
  o.estimated_profit * bid_percentage / 100

/-! ## CLI surface (main.rs) -/

/-- Decimal parse of a `u64` flag value as `clap` performs it for a field
declared `pub bid_percentage: u64` (`u64::from_str`): an optional leading
`+`, then one or more ASCII digits, rejecting values at or above `2^64`. -/
def parseU64 (s : String) : Option Nat :=
  let cs := match s.data with
    | '+' :: rest => rest
    | cs => cs
  if cs.isEmpty then none
  else if cs.all Char.isDigit then
    let v := cs.foldl (fun acc c => acc * 10 + (c.toNat - 48)) 0
    if v < 2 ^ 64 then some v else none
  else none

/-- `Args` default for `pool_interval_secs` (`default_value_t = 10`). -/
def pool_interval_secs_default : Nat := 10

/-- `Args` default for `update_all_pools_secs` (`default_value_t = 60*60*24*2`). -/
def update_all_pools_secs_default : Nat := 60 * 60 * 24 * 2

/-- `Args` default for `activity_level_clean_secs`
(`default_value_t = 60*60*24*7`). -/
def activity_level_clean_secs_default : Nat := 60 * 60 * 24 * 7

/-- `Args` default for `calc_all_positions_secs` (`default_value_t = 60*60*24`). -/
def calc_all_positions_secs_default : Nat := 60 * 60 * 24

/-! ## `main` control flow (main.rs) -/

/-- The constructions `main` performs after argument parsing, in source
order: the wallet from the parsed signer, the provider from the parsed RPC
URL, then engine, collector, strategy and executor, then the engine run. -/
inductive BuildEvent where
  | wallet
  | provider
  | engine
  | collector
  | strategy
  | executor
  | engineRun
  deriving DecidableEq

/-- The two configuration parses `main` can fail on before the engine is
built: `private_key.parse().expect(...)` and `rpc.parse()?`. -/
inductive MainError where
  | privateKeyParse
  | rpcParse
  deriving DecidableEq

/-- Control flow of `main` after `Args::parse`, abstracted over whether the
two fallible parses succeed: `private_key.parse()` is `expect`ed (process
aborts on failure), then the wallet is built, then `rpc.parse()?` returns
early on failure, then provider, engine, collector, strategy and executor
are built and the engine is run. Returns the construction events performed,
and the fatal error if one occurred. -/
def mainFlow (signerOk rpcOk : Bool) : List BuildEvent × Option MainError :=
  if !signerOk then ([], some .privateKeyParse)
  else if !rpcOk then ([.wallet], some .rpcParse)
  else ([.wallet, .provider, .engine, .collector, .strategy, .executor,
    .engineRun], none)

/-! ## Action and executor map (main.rs) -/

/-- `Action` emitted by the strategy, parametrised by the network's
transaction-request type. Modelled from the spec: `strategies/types.rs` is
missing from the snapshot; the spec's engine→executor interface carries a
fully formed transaction request, and the exhaustive one-arm
`match action { Action::SubmitTx(tx) => ... }` in `main.rs` confirms
`SubmitTx` is the sole variant. -/
inductive Action (N : Type) where
  | SubmitTx : N → Action N

/-- The closure passed to `ExecutorMap::new` in `main.rs`:
`|action| match action { Action::SubmitTx(tx) => Some(tx) }`. -/
def executorMapFn {N : Type} (action : Action N) : Option N :=
  match action with
  | .SubmitTx tx => some tx

/-- A concrete one-record cache (every pool synced at block 10), used to
instantiate cache statements at a concrete input. -/
def demoCache : PoolStateCache := fun _ => some { reserve := 5, last_synced_block := 10 }

/-! ## Helper lemmas -/

/-- A single `apply` never decreases the stored `last_synced_block` of any
pool: the applied pool either keeps its record (stale read dropped) or takes
the new, not-older block; other pools are untouched. -/
theorem PoolStateCache.apply_storedBlock_le (cache : PoolStateCache)
    (pool_id reading block pid : Nat) :
    cache.storedBlock pid ≤ (cache.apply pool_id reading block).storedBlock pid := by
  unfold PoolStateCache.apply PoolStateCache.storedBlock
  by_cases hp : pid = pool_id
  · subst hp
    simp only [if_pos rfl]
    cases hc : cache pid with
    | none => simp [hc]
    | some r =>
        by_cases hb : block < r.last_synced_block
        · simp [hc, hb]
        · simp [hc, hb]
          omega
  · simp [hp]

/-- Folding a whole sequence of `apply` calls never decreases any stored
`last_synced_block`. -/
theorem PoolStateCache.applyAll_storedBlock_le (cache : PoolStateCache)
    (calls : List ApplyCall) (pid : Nat) :
    cache.storedBlock pid ≤ (cache.applyAll calls).storedBlock pid := by
  induction calls generalizing cache with
  | nil => exact Nat.le_refl _
  | cons k rest ih =>
      exact Nat.le_trans
        (PoolStateCache.apply_storedBlock_le cache k.pool_id k.reading k.block pid)
        (ih (cache.apply k.pool_id k.reading k.block))

/-- An `apply` whose block is strictly older than the stored
`last_synced_block` is a no-op on the whole cache. -/
theorem PoolStateCache.apply_stale_noop (cache : PoolStateCache)
    (pool_id reading block : Nat)
    (h : block < cache.storedBlock pool_id) :
    cache.apply pool_id reading block = cache := by
  funext pid
  unfold PoolStateCache.apply
  by_cases hp : pid = pool_id
  · subst hp
    simp only [if_pos rfl]
    unfold PoolStateCache.storedBlock at h
    cases hc : cache pid with
    | none => rw [hc] at h; simp at h
    | some r =>
        rw [hc] at h
        simp only [Option.elim] at h
        simp [h]
  · simp [hp]

/-- One ledger call never changes the cap. -/
theorem BudgetLedger.step_cap (l : BudgetLedger) (op : LedgerOp) :
    (l.step op).cap = l.cap := by
  cases op with
  | reserveOp amount =>
      simp only [BudgetLedger.step]
      cases hres : l.reserve amount with
      | ok p =>
          unfold BudgetLedger.reserve at hres
          split at hres
          · exact absurd hres (by simp)
          · cases hres; rfl
      | error e => rfl
  | releaseOp token => rfl

/-- One ledger call preserves `cumulative_spent ≤ cap`. -/
theorem BudgetLedger.step_inv (l : BudgetLedger) (op : LedgerOp)
    (h : l.cumulative_spent ≤ l.cap) :
    (l.step op).cumulative_spent ≤ (l.step op).cap := by
  cases op with
  | reserveOp amount =>
      simp only [BudgetLedger.step]
      cases hres : l.reserve amount with
      | ok p =>
          unfold BudgetLedger.reserve at hres
          split at hres
          · exact absurd hres (by simp)
          · rename_i hcap
            cases hres
            show l.cumulative_spent + amount ≤ l.cap
            omega
      | error e => exact h
  | releaseOp token =>
      simp only [BudgetLedger.step, BudgetLedger.release]
      show l.cumulative_spent - token.amount ≤ l.cap
      omega

/-- A whole interleaving of ledger calls preserves `cumulative_spent ≤ cap`. -/
theorem BudgetLedger.run_inv (l : BudgetLedger) (ops : List LedgerOp)
    (h : l.cumulative_spent ≤ l.cap) :
    (l.run ops).cumulative_spent ≤ (l.run ops).cap := by
  induction ops generalizing l with
  | nil => exact h
  | cons op rest ih => exact ih (l.step op) (BudgetLedger.step_inv l op h)

/-- If the key occurs nowhere in the searched range, the binary-search loop
returns an insertion point, never `Ok`. -/
theorem PoolUtils.binarySearchGo_not_mem (xs : List Nat) (key : Nat)
    (fuel left right : Nat)
    (h : ∀ i, left ≤ i → i < right → xs.getD i 0 ≠ key) :
    ∃ e, PoolUtils.binarySearchGo xs key fuel left right = .error e := by
  induction fuel generalizing left right with
  | zero => exact ⟨left, rfl⟩
  | succ fuel ih =>
      unfold PoolUtils.binarySearchGo
      by_cases hlr : left < right
      · simp only [if_pos hlr]
        have hmidlo : left ≤ left + (right - left) / 2 := Nat.le_add_right _ _
        have hmidhi : left + (right - left) / 2 < right := by omega
        unfold PoolUtils.natCmp
        by_cases h1 : xs.getD (left + (right - left) / 2) 0 < key
        · simp only [if_pos h1]
          exact ih _ _ fun i hi hi2 => h i (by omega) hi2
        · by_cases h2 : key < xs.getD (left + (right - left) / 2) 0
          · simp only [if_neg h1, if_pos h2]
            exact ih _ _ fun i hi hi2 => h i hi (by omega)
          · exact absurd (by omega : xs.getD (left + (right - left) / 2) 0 = key)
              (h _ hmidlo hmidhi)
      · simp only [if_neg hlr]
        exact ⟨left, rfl⟩

/-- When the binary-search loop returns `Ok idx`, `idx` lies in the searched
range and the element there equals the key. -/
theorem PoolUtils.binarySearchGo_ok (xs : List Nat) (key : Nat)
    (fuel left right idx : Nat)
    (h : PoolUtils.binarySearchGo xs key fuel left right = .ok idx) :
    left ≤ idx ∧ idx < right ∧ xs.getD idx 0 = key := by
  induction fuel generalizing left right with
  | zero => exact absurd h (by simp [PoolUtils.binarySearchGo])
  | succ fuel ih =>
      unfold PoolUtils.binarySearchGo at h
      by_cases hlr : left < right
      · simp only [if_pos hlr] at h
        have hmidlo : left ≤ left + (right - left) / 2 := Nat.le_add_right _ _
        have hmidhi : left + (right - left) / 2 < right := by omega
        unfold PoolUtils.natCmp at h
        by_cases h1 : xs.getD (left + (right - left) / 2) 0 < key
        · simp only [if_pos h1] at h
          obtain ⟨ha, hb, hc⟩ := ih _ _ h
          exact ⟨by omega, hb, hc⟩
        · by_cases h2 : key < xs.getD (left + (right - left) / 2) 0
          · simp only [if_neg h1, if_pos h2] at h
            obtain ⟨ha, hb, hc⟩ := ih _ _ h
            exact ⟨ha, by omega, hc⟩
          · simp only [if_neg h1, if_neg h2] at h
            cases h
            exact ⟨hmidlo, hmidhi, by omega⟩
      · simp only [if_neg hlr] at h
        exact absurd h (by simp)

/-! ## Claim theorems -/

/-- C1: over every sequence of `apply(pool_id, reading, block)` calls on
`PoolStateCache`, the stored `last_synced_block` of every pool is
non-decreasing, and an `apply` whose block is older than the stored
`last_synced_block` leaves the cache (hence the stored `PoolRecord`)
unchanged. -/
theorem poolStateCache_apply_block_monotone (cache : PoolStateCache)
    (calls : List ApplyCall) (pool_id reading block pid : Nat) :
    (block < cache.storedBlock pool_id →
      cache.apply pool_id reading block = cache) ∧
    cache.storedBlock pid ≤ (cache.applyAll calls).storedBlock pid :=
  ⟨fun h => PoolStateCache.apply_stale_noop cache pool_id reading block h,
   PoolStateCache.applyAll_storedBlock_le cache calls pid⟩

/-- Witness for C1: on a cache synced at block 10, an `apply` at block 3 is a
no-op, and the stored block after a sequence of calls is at least the
original. -/
theorem poolStateCache_apply_block_monotone_witness :
    demoCache.apply 1 7 3 = demoCache ∧
    demoCache.storedBlock 0 ≤ (demoCache.applyAll [⟨1, 7, 3⟩]).storedBlock 0 :=
  ⟨(poolStateCache_apply_block_monotone demoCache [⟨1, 7, 3⟩] 1 7 3 0).1
      (by decide),
   (poolStateCache_apply_block_monotone demoCache [⟨1, 7, 3⟩] 1 7 3 0).2⟩

/-- C2: across every interleaving of `reserve`/`release` calls,
`cumulative_spent` never exceeds `cap`; `reserve(amount)` fails with
`BudgetExceeded` and leaves the ledger unchanged when
`cumulative_spent + amount > cap`; on success it increments
`cumulative_spent` by `amount` and releasing the returned (unconfirmed)
reservation restores exactly the reserved amount. -/
theorem budgetLedger_cap_invariant (l : BudgetLedger) (amount : Nat)
    (ops : List LedgerOp) :
    (l.cumulative_spent ≤ l.cap →
      (l.run ops).cumulative_spent ≤ (l.run ops).cap) ∧
    (l.cumulative_spent + amount > l.cap →
      l.reserve amount = .error .BudgetExceeded ∧
      l.step (.reserveOp amount) = l) ∧
    (∀ l2 tok, l.reserve amount = .ok (l2, tok) →
      l2.cumulative_spent = l.cumulative_spent + amount ∧
      tok.amount = amount ∧ l2.release tok = l) := by
  refine ⟨fun h => BudgetLedger.run_inv l ops h, fun hover => ?_, ?_⟩
  · constructor
    · unfold BudgetLedger.reserve
      rw [if_pos hover]
    · simp only [BudgetLedger.step]
      cases hres : l.reserve amount with
      | ok p =>
          unfold BudgetLedger.reserve at hres
          rw [if_pos hover] at hres
          exact absurd hres (by simp)
      | error e => rfl
  · intro l2 tok hres
    unfold BudgetLedger.reserve at hres
    split at hres
    · exact absurd hres (by simp)
    · cases hres
      refine ⟨rfl, rfl, ?_⟩
      unfold BudgetLedger.release
      simp only [Nat.add_sub_cancel]

/-- Witness for C2 (the spec scenario `cap - cumulative_spent = 50`,
`reserve(100)`): the reserve fails with `BudgetExceeded` and the ledger step
leaves the state unchanged; a run keeps spend within cap. -/
theorem budgetLedger_cap_invariant_witness :
    (BudgetLedger.run ⟨50, 100⟩ [.reserveOp 100]).cumulative_spent ≤
      (BudgetLedger.run ⟨50, 100⟩ [.reserveOp 100]).cap ∧
    BudgetLedger.reserve ⟨50, 100⟩ 100 = .error .BudgetExceeded ∧
    BudgetLedger.step ⟨50, 100⟩ (.reserveOp 100) = ⟨50, 100⟩ :=
  ⟨(budgetLedger_cap_invariant ⟨50, 100⟩ 100 [.reserveOp 100]).1 (by decide),
   (budgetLedger_cap_invariant ⟨50, 100⟩ 100 [.reserveOp 100]).2.1 (by decide)⟩

/-- C3: for every opportunity and every `bid_percentage ≤ 100`, `size_bid`
returns `estimated_profit * bid_percentage / 100` with integer floor
division, so the gas bid never exceeds the estimated profit funding it; in
particular `bid_percentage = 20`, `estimated_profit = 500` yields `100`. -/
theorem size_bid_floor_and_bound (o : Opportunity) (bid_percentage : Nat)
    (hp : bid_percentage ≤ 100) :
    size_bid o bid_percentage = o.estimated_profit * bid_percentage / 100 ∧
    size_bid o bid_percentage ≤ o.estimated_profit ∧
    size_bid { estimated_profit := 500 } 20 = 100 := by
  refine ⟨rfl, ?_, by decide⟩
  unfold size_bid
  calc o.estimated_profit * bid_percentage / 100
      ≤ o.estimated_profit * 100 / 100 :=
        Nat.div_le_div_right (Nat.mul_le_mul_left _ hp)
    _ = o.estimated_profit := Nat.mul_div_cancel _ (by omega)

/-- Witness for C3: at `estimated_profit = 500`, `bid_percentage = 20`, the
bid is `500 * 20 / 100` and is at most the profit. -/
theorem size_bid_floor_and_bound_witness :
    size_bid ⟨500⟩ 20 = 500 * 20 / 100 ∧
    size_bid ⟨500⟩ 20 ≤ 500 ∧
    size_bid ⟨500⟩ 20 = 100 :=
  size_bid_floor_and_bound ⟨500⟩ 20 (by decide)

/-- Counterexample to C4 as stated: the argument parser accepts the command
line value `150` for `bid_percentage` (the field is a bare `u64` with no
range validator), and `150` exceeds `100`. -/
theorem bid_percentage_over_100_accepted :
    parseU64 "150" = some 150 ∧ 100 < 150 :=
  ⟨rfl, by decide⟩

/-- C4 amended: every `bid_percentage` accepted by the argument parser is an
unsigned 64-bit value (below `2^64`); no upper bound of `100` is enforced,
so values above `100` reach the engine. -/
theorem bid_percentage_accepts_any_u64 (s : String) (v : Nat)
    (h : parseU64 s = some v) : v < 2 ^ 64 := by
  unfold parseU64 at h
  split at h <;> dsimp only at h <;>
  · split at h
    · exact absurd h (by simp)
    · split at h
      · split at h
        · rename_i hlt
          cases h
          exact hlt
        · exact absurd h (by simp)
      · exact absurd h (by simp)

/-- Witness for C4's amended claim: the accepted value `150` is below
`2^64`. -/
theorem bid_percentage_accepts_any_u64_witness : (150 : Nat) < 2 ^ 64 :=
  bid_percentage_accepts_any_u64 "150" 150 rfl

/-- C5: the four cadence defaults of `Args` are 10 seconds (hot poll),
172800 seconds = 2 days (full pool refresh), 604800 seconds = 7 days
(activity-level cleanup) and 86400 seconds = 1 day (position
recomputation). -/
theorem cadence_defaults :
    pool_interval_secs_default = 10 ∧
    update_all_pools_secs_default = 172800 ∧
    activity_level_clean_secs_default = 604800 ∧
    calc_all_positions_secs_default = 86400 := by
  decide

/-- C6: if the private-key parse or the RPC parse fails, `main` terminates
with an error before the engine, strategy or executor is constructed and
before the engine runs. -/
theorem mainFlow_parse_failure_no_engine (signerOk rpcOk : Bool)
    (h : signerOk = false ∨ rpcOk = false) :
    (mainFlow signerOk rpcOk).2.isSome = true ∧
    BuildEvent.engine ∉ (mainFlow signerOk rpcOk).1 ∧
    BuildEvent.strategy ∉ (mainFlow signerOk rpcOk).1 ∧
    BuildEvent.executor ∉ (mainFlow signerOk rpcOk).1 ∧
    BuildEvent.engineRun ∉ (mainFlow signerOk rpcOk).1 := by
  revert h
  cases signerOk <;> cases rpcOk <;> decide

/-- Witness for C6: with a bad RPC string (and a good key), `main` reports a
fatal error and no engine, strategy or executor is built. -/
theorem mainFlow_parse_failure_no_engine_witness :
    (mainFlow true false).2.isSome = true ∧
    BuildEvent.engine ∉ (mainFlow true false).1 ∧
    BuildEvent.strategy ∉ (mainFlow true false).1 ∧
    BuildEvent.executor ∉ (mainFlow true false).1 ∧
    BuildEvent.engineRun ∉ (mainFlow true false).1 :=
  mainFlow_parse_failure_no_engine true false (Or.inr rfl)

/-- C7: every `Action` the engine can emit is of the `SubmitTx` form, and the
`ExecutorMap` closure forwards it as `Some` of its transaction — it never
drops an action. -/
theorem action_executor_map_total {N : Type} (a : Action N) :
    ∃ tx, a = Action.SubmitTx tx ∧ executorMapFn a = some tx := by
  cases a with
  | SubmitTx tx => exact ⟨tx, rfl, rfl⟩

/-- C8: decoding any 4-byte selector that is none of the three `PoolUtils`
selectors yields the typed `unknown_selector` error, for every data slice
and either `validate` flag — never a panic and never a decoded call. -/
theorem abi_decode_raw_unknown_selector (sel : Nat) (data : List Nat)
    (validate : Bool)
    (h0 : sel ≠ PoolUtils.IGNORE_CALC_LOANCall.SELECTOR)
    (h1 : sel ≠ PoolUtils.MINIMUM_LIQUIDITYCall.SELECTOR)
    (h2 : sel ≠ PoolUtils.IGNORE_CALC_AVAILABLECall.SELECTOR) :
    PoolUtils.PoolUtilsCalls.abi_decode_raw sel data validate
      = .error (.unknown_selector "PoolUtilsCalls" sel) := by
  have hnm : ∀ i, 0 ≤ i → i < PoolUtils.PoolUtilsCalls.SELECTORS.length →
      PoolUtils.PoolUtilsCalls.SELECTORS.getD i 0 ≠ sel := by
    intro i _ hi
    have hi3 : i < 3 := hi
    interval_cases i
    · exact fun he => h0 he.symm
    · exact fun he => h1 he.symm
    · exact fun he => h2 he.symm
  obtain ⟨e, he⟩ := PoolUtils.binarySearchGo_not_mem
    PoolUtils.PoolUtilsCalls.SELECTORS sel
    (PoolUtils.PoolUtilsCalls.SELECTORS.length + 1) 0
    PoolUtils.PoolUtilsCalls.SELECTORS.length hnm
  unfold PoolUtils.PoolUtilsCalls.abi_decode_raw PoolUtils.binary_search
  rw [he]

/-- Witness for C8: selector `0` is unknown and decodes to the typed
`unknown_selector` error. -/
theorem abi_decode_raw_unknown_selector_witness :
    PoolUtils.PoolUtilsCalls.abi_decode_raw 0 [] false
      = .error (.unknown_selector "PoolUtilsCalls" 0) :=
  abi_decode_raw_unknown_selector 0 [] false (by decide) (by decide) (by decide)

/-- C9: whenever the binary search over `SELECTORS` returns `Ok idx`, `idx`
is strictly below the length of `DECODE_SHIMS` (so the unchecked indexing is
in bounds), `SELECTORS` is sorted, and the shim at `idx` only ever decodes
to a call whose own selector is `SELECTORS[idx]`. -/
theorem decode_shims_aligned (sel idx : Nat)
    (h : PoolUtils.binary_search PoolUtils.PoolUtilsCalls.SELECTORS sel
      = .ok idx) :
    idx < PoolUtils.PoolUtilsCalls.DECODE_SHIMS.length ∧
    List.Sorted (· < ·) PoolUtils.PoolUtilsCalls.SELECTORS ∧
    ∀ data validate c,
      (PoolUtils.PoolUtilsCalls.DECODE_SHIMS.getD idx
          fun _ _ => .error .reencode_mismatch) data validate = .ok c →
      c.selector = PoolUtils.PoolUtilsCalls.SELECTORS.getD idx 0 := by
  obtain ⟨-, hidx, hsel⟩ := PoolUtils.binarySearchGo_ok
    PoolUtils.PoolUtilsCalls.SELECTORS sel
    (PoolUtils.PoolUtilsCalls.SELECTORS.length + 1) 0
    PoolUtils.PoolUtilsCalls.SELECTORS.length idx h
  have hidx3 : idx < 3 := hidx
  refine ⟨hidx3, by decide, ?_⟩
  intro data validate c hc
  interval_cases idx
  · simp only [PoolUtils.PoolUtilsCalls.DECODE_SHIMS, List.getD_cons_zero,
      PoolUtils.IGNORE_CALC_LOANCall.abi_decode_raw] at hc
    cases hd : PoolUtils.abi_decode_unit data validate with
    | error e => rw [hd] at hc; exact absurd hc (by simp [Except.map])
    | ok u =>
        rw [hd] at hc
        simp only [Except.map] at hc
        cases hc
        rfl
  · simp only [PoolUtils.PoolUtilsCalls.DECODE_SHIMS, List.getD_cons_zero,
      List.getD_cons_succ, PoolUtils.MINIMUM_LIQUIDITYCall.abi_decode_raw] at hc
    cases hd : PoolUtils.abi_decode_unit data validate with
    | error e => rw [hd] at hc; exact absurd hc (by simp [Except.map])
    | ok u =>
        rw [hd] at hc
        simp only [Except.map] at hc
        cases hc
        rfl
  · simp only [PoolUtils.PoolUtilsCalls.DECODE_SHIMS, List.getD_cons_zero,
      List.getD_cons_succ, PoolUtils.IGNORE_CALC_AVAILABLECall.abi_decode_raw] at hc
    cases hd : PoolUtils.abi_decode_unit data validate with
    | error e => rw [hd] at hc; exact absurd hc (by simp [Except.map])
    | ok u =>
        rw [hd] at hc
        simp only [Except.map] at hc
        cases hc
        rfl

/-- Witness for C9: searching the first selector returns index `0`, which is
in bounds, and the shim there decodes to the `IGNORE_CALC_LOAN` variant,
whose selector is `SELECTORS[0]`. -/
theorem decode_shims_aligned_witness :
    0 < PoolUtils.PoolUtilsCalls.DECODE_SHIMS.length ∧
    PoolUtils.PoolUtilsCalls.selector
        (.IGNORE_CALC_LOAN {}) = PoolUtils.PoolUtilsCalls.SELECTORS.getD 0 0 :=
  ⟨(decode_shims_aligned (bytes4 120 61 9 113) 0 rfl).1,
   (decode_shims_aligned (bytes4 120 61 9 113) 0 rfl).2.2 [] false
      (.IGNORE_CALC_LOAN {}) rfl⟩

/-- C10: for every `PoolUtilsCalls` value, decoding its own selector together
with its `abi_encode_raw` bytes (with either `validate` flag) succeeds and
returns the very same call — the encode-then-decode round trip is the
identity. -/
theorem abi_encode_decode_roundtrip (c : PoolUtils.PoolUtilsCalls)
    (validate : Bool) :
    PoolUtils.PoolUtilsCalls.abi_decode_raw c.selector c.abi_encode_raw
      validate = .ok c := by
  cases c with
  | IGNORE_CALC_AVAILABLE inner => cases inner; cases validate <;> rfl
  | IGNORE_CALC_LOAN inner => cases inner; cases validate <;> rfl
  | MINIMUM_LIQUIDITY inner => cases inner; cases validate <;> rfl

end MmLiquidator
